import Mathlib

/-!
Verification of the upload validator of `src/users/profile_views.py`
(`SecureFileUploadMixin`).  The validator is embedded shallowly: an uploaded
file is a record of its declared name, declared size, byte content and current
stream position; `validate_file` is a pure function returning either the
accepted result or the raised `ValidationError` (reason tag plus message),
together with the stream position left behind by the call.

The MIME-detection step of the source calls the Python standard library
function `mimetypes.guess_type`; that function is embedded here as well
(`guessType`), following CPython 3.11 `Lib/mimetypes.py`: the scheme split of
`urllib.parse._splittype`, the data-URL branch, the suffix and encodings maps,
and the extension table (`typesMap` below carries the builtin table restricted
to a representative set of entries, containing in particular every extension of
the validator's allow-list).  String lowercasing is modelled on ASCII
(`lowerChar`), which is exact for every comparison the code performs.
-/

namespace UploadValidator

/-- ASCII lowercasing of one character: models Python `str.lower` /
`bytes.lower` restricted to ASCII, which is exact for all comparisons made by
the code (extension sets, MIME keys, byte markers are ASCII). -/
def lowerChar (c : Char) : Char :=
  if 65 ≤ c.toNat ∧ c.toNat ≤ 90 then Char.ofNat (c.toNat + 32) else c

/-- Lowercasing of a character list (Python `str.lower`). -/
def lowerStr (s : List Char) : List Char := s.map lowerChar

/-- ASCII lowercasing of one byte (Python `bytes.lower`, per byte). -/
def byteLower (b : Nat) : Nat := if 65 ≤ b ∧ b ≤ 90 then b + 32 else b

/-- The bytes of an ASCII string, as used for the `b'...'` literals. -/
def strBytes (s : String) : List Nat := s.data.map Char.toNat

/-- Python's `in` test on sequences: `hasSeg pat l` holds when `pat` occurs as
a contiguous segment of `l`. -/
def hasSeg [BEq α] (pat : List α) : List α → Bool
  | [] => pat.isEmpty
  | c :: cs => pat.isPrefixOf (c :: cs) || hasSeg pat cs

/-- Characters allowed in a URL scheme by `urllib.parse._splittype`
(regular expression `([^/:]+):`): anything except a slash or a colon. -/
def schemeChar (c : Char) : Bool := c != '/' && c != ':'

/-- The extension-scan predicate of `posixpath.splitext`: a character that is
neither the extension separator nor the path separator. -/
def notDotSlash (c : Char) : Bool := c != '.' && c != '/'

/-- `posixpath.splitext` (= `os.path.splitext` on the deployment platform):
split at the last dot of the last path component, unless every character
between the last slash and that dot is itself a dot (leading dots of a basename
never start an extension). -/
def splitext (p : List Char) : List Char × List Char :=
  match p.reverse.span notDotSlash with
  | (_, []) => (p, [])
  | (extRev, c :: restRev) =>
    if c = '/' then (p, [])
    else if (restRev.takeWhile (fun d => d != '/')).any (fun d => d != '.') then
      (restRev.reverse, '.' :: extRev.reverse)
    else (p, [])

/-- `urllib.parse._splittype`: split `scheme:rest` when the input starts with a
non-empty run of scheme characters followed by a colon; the scheme is returned
lowercased.  Otherwise the input is returned unchanged. -/
def splittype (url : List Char) : Option (List Char) × List Char :=
  match url.span schemeChar with
  | (_, []) => (none, url)
  | (pre, c :: rest) =>
    if c = ':' ∧ pre.isEmpty = false then (some (lowerStr pre), rest) else (none, url)

/-- `mimetypes.suffix_map`. -/
def suffixMap : List (List Char × List Char) :=
  [(".svgz".data, ".svg.gz".data), (".tgz".data, ".tar.gz".data),
   (".taz".data, ".tar.gz".data), (".tz".data, ".tar.gz".data),
   (".tbz2".data, ".tar.bz2".data), (".txz".data, ".tar.xz".data)]

/-- The keys of `mimetypes.encodings_map` (matched case-sensitively). -/
def encodingsKeys : List (List Char) :=
  [".gz".data, ".Z".data, ".bz2".data, ".xz".data, ".br".data]

/-- `mimetypes.types_map` (CPython 3.11 builtin table, restricted to a
representative set of entries; it contains every extension of the validator's
allow-list with its exact MIME type). -/
def typesMap : List (List Char × List Char) :=
  [(".pdf".data, "application/pdf".data),
   (".doc".data, "application/msword".data),
   (".docx".data, "application/vnd.openxmlformats-officedocument.wordprocessingml.document".data),
   (".txt".data, "text/plain".data),
   (".jpg".data, "image/jpeg".data),
   (".jpeg".data, "image/jpeg".data),
   (".png".data, "image/png".data),
   (".gif".data, "image/gif".data),
   (".html".data, "text/html".data),
   (".htm".data, "text/html".data),
   (".js".data, "text/javascript".data),
   (".exe".data, "application/x-msdos-program".data),
   (".svg".data, "image/svg+xml".data),
   (".xml".data, "application/xml".data),
   (".csv".data, "text/csv".data),
   (".json".data, "application/json".data),
   (".zip".data, "application/zip".data),
   (".tar".data, "application/x-tar".data),
   (".gz".data, "application/gzip".data)]

/-- The `while ext.lower() in suffix_map` loop of `guess_type`; the fuel bound
is never reached because every replacement ends in an extension outside
`suffix_map`. -/
def stripSuffixes : Nat → List Char × List Char → List Char × List Char
  | 0, be => be
  | fuel + 1, (base, ext) =>
    match suffixMap.lookup (lowerStr ext) with
    | some rep => stripSuffixes fuel (splitext (base ++ rep))
    | none => (base, ext)

/-- The non-data-URL path of `mimetypes.guess_type` on the scheme-stripped
input: suffix-map expansion, encodings stripping, then lookup of the lowercased
extension in the types table. -/
def guessTypeTable (url : List Char) : Option (List Char) :=
  let be := stripSuffixes 8 (splitext url)
  let ext := if encodingsKeys.contains be.2 then (splitext be.1).2 else be.2
  typesMap.lookup (lowerStr ext)

/-- The data-URL branch of `mimetypes.guess_type`, applied to the text after
`data:`: no comma means a bad data URL (detection fails); otherwise the media
type is the text before the first semicolon or comma, defaulted to
`text/plain` when it carries an `=` or no slash. -/
def dataUrlType (rest : List Char) : Option (List Char) :=
  match rest.findIdx? (fun c => c == ',') with
  | none => none
  | some comma =>
    let ty := (rest.take comma).takeWhile (fun c => c != ';')
    if ty.contains '=' || !(ty.contains '/') then some "text/plain".data else some ty

/-- `mimetypes.guess_type` (the type component; the encoding component is
discarded by the caller). -/
def guessType (url : List Char) : Option (List Char) :=
  match splittype url with
  | (some scheme, rest) =>
    if scheme = "data".data then dataUrlType rest else guessTypeTable rest
  | (none, rest) => guessTypeTable rest

/-- The rejection taxonomy of the validator (one tag per `raise` site). -/
inductive Reason
  | FileTooLarge
  | FilenameTooLong
  | ExtensionNotAllowed
  | MimeNotAllowed
  | SuspiciousContent
deriving DecidableEq, Repr

/-- A raised `ValidationError`: which check raised it, and its message. -/
structure VError where
  reason : Reason
  message : String
deriving DecidableEq, Repr

/-- An uploaded file as seen by `validate_file`: declared name, declared size
(bytes), underlying byte content, and current stream position. -/
structure UploadedFile where
  name : String
  size : Nat
  content : List Nat
  pos : Nat
deriving DecidableEq, Repr

/-- `SecureFileUploadMixin.ALLOWED_FILE_TYPES` (insertion order of the dict). -/
def ALLOWED_FILE_TYPES : List (List Char × List Char) :=
  [("application/pdf".data, ".pdf".data),
   ("application/msword".data, ".doc".data),
   ("application/vnd.openxmlformats-officedocument.wordprocessingml.document".data, ".docx".data),
   ("text/plain".data, ".txt".data),
   ("image/jpeg".data, ".jpg".data),
   ("image/png".data, ".png".data)]

/-- `SecureFileUploadMixin.MAX_FILE_SIZE`. -/
def MAX_FILE_SIZE : Nat := 10 * 1024 * 1024

/-- `SecureFileUploadMixin.MAX_FILENAME_LENGTH`. -/
def MAX_FILENAME_LENGTH : Nat := 255

/-- `self.ALLOWED_FILE_TYPES.values()`. -/
def allowedExts : List (List Char) := ALLOWED_FILE_TYPES.map (fun p => p.2)

/-- The keys of `self.ALLOWED_FILE_TYPES`. -/
def allowedMimes : List (List Char) := ALLOWED_FILE_TYPES.map (fun p => p.1)

/-- `{v: k for k, v in self.ALLOWED_FILE_TYPES.items()}`. -/
def extension_to_mime : List (List Char × List Char) :=
  ALLOWED_FILE_TYPES.map (fun p => (p.2, p.1))

/-- The byte patterns of `_contains_suspicious_content`. -/
def suspicious_patterns : List (List Nat) :=
  [strBytes "<script", strBytes "javascript:", strBytes "vbscript:",
   strBytes "data:text/html", strBytes "data:application/x-javascript"]

/-- `SecureFileUploadMixin._contains_suspicious_content`. -/
def contains_suspicious_content (file_content : List Nat) : Bool :=
  suspicious_patterns.any (fun pat => hasSeg pat (file_content.map byteLower))

/-- The detected MIME type of lines 63–70 of the source: `mimetypes.guess_type`
on the filename, falling back on the reverse allow-list lookup of the
lowercased extension when detection fails. -/
def detected_mime (f : UploadedFile) : Option (List Char) :=
  match guessType f.name.data with
  | some m => some m
  | none => extension_to_mime.lookup (lowerStr (splitext f.name.data).2)

/-- The 2048-byte sample read by `uploaded_file.read(2048)` from the current
stream position. -/
def sampleOf (f : UploadedFile) : List Nat := (f.content.drop f.pos).take 2048

/-- The membership test `detected_mime in self.ALLOWED_FILE_TYPES` of line 73
of the source: a missing detection (`None`) is never a key of the dict. -/
def optMimeAllowed (d : Option (List Char)) : Bool :=
  match d with
  | some m => allowedMimes.contains m
  | none => false

/-- The message of the size rejection (line 48 of the source). -/
def size_message : String :=
  "File size exceeds maximum limit of " ++ toString (MAX_FILE_SIZE / (1024 * 1024)) ++ "MB"

/-- The message of the filename-length rejection (line 52 of the source). -/
def length_message : String :=
  "Filename too long. Maximum length is " ++ toString MAX_FILENAME_LENGTH ++ " characters"

/-- The message of the extension rejection (line 57 of the source). -/
def extension_message : String :=
  "File type not allowed. Allowed types: " ++ String.intercalate ", " (allowedExts.map String.mk)

/-- The message of the MIME rejection (line 74 of the source); a failed
detection prints as Python `None`. -/
def mime_message (d : Option (List Char)) : String :=
  "File type not allowed. Detected: " ++ (match d with | some m => String.mk m | none => "None")

/-- The message of the content rejection (line 78 of the source). -/
def sniff_message : String := "File contains suspicious content"

/-- The body of `validate_file` before the enclosing `except` clause: the five
checks in source order.  The second component is the stream position after the
call: unchanged while no read has happened, `0` from the `seek(0)` onwards. -/
def validate_core (f : UploadedFile) : Except VError Bool × Nat :=
  if MAX_FILE_SIZE < f.size then
    (.error ⟨.FileTooLarge, size_message⟩, f.pos)
  else if MAX_FILENAME_LENGTH < f.name.length then
    (.error ⟨.FilenameTooLong, length_message⟩, f.pos)
  else if !(allowedExts.contains (lowerStr (splitext f.name.data).2)) then
    (.error ⟨.ExtensionNotAllowed, extension_message⟩, f.pos)
  else
    if !(optMimeAllowed (detected_mime f)) then
      (.error ⟨.MimeNotAllowed, mime_message (detected_mime f)⟩, 0)
    else if contains_suspicious_content (sampleOf f) then
      (.error ⟨.SuspiciousContent, sniff_message⟩, 0)
    else (.ok true, 0)

/-- The single-quote character. -/
def squoteChar : Char := Char.ofNat 39

/-- A one-character single-quote string, used to state concrete messages. -/
def sq : String := squoteChar.toString

/-- The double-quote character. -/
def dquoteChar : Char := Char.ofNat 34

/-- The backslash character. -/
def backslashChar : Char := Char.ofNat 92

/-- One lowercase hexadecimal digit, as printed by Python escapes. -/
def hexDigit (n : Nat) : Char :=
  if n < 10 then Char.ofNat (48 + n) else Char.ofNat (87 + n)

/-- CPython `repr` escaping of one character under the chosen quote: the quote
character and the backslash are backslash-escaped, tab, newline and carriage
return print as their two-character escapes, and the remaining non-printable
characters print as `\xNN`.  Characters at or above `0x80` are emitted
verbatim here (CPython consults Unicode printability for them; no statement
in this file depends on such characters). -/
def reprEscapeChar (q : Char) (c : Char) : List Char :=
  if c = q ∨ c = backslashChar then [backslashChar, c]
  else if c = Char.ofNat 9 then [backslashChar, 't']
  else if c = Char.ofNat 10 then [backslashChar, 'n']
  else if c = Char.ofNat 13 then [backslashChar, 'r']
  else if c.toNat < 32 ∨ c.toNat = 127 then
    [backslashChar, 'x', hexDigit (c.toNat / 16), hexDigit (c.toNat % 16)]
  else [c]

/-- CPython quote selection for `repr` of a string: single quotes, unless the
string holds a single quote and no double quote. -/
def pyReprQuote (s : List Char) : Char :=
  if s.contains squoteChar && !(s.contains dquoteChar) then dquoteChar else squoteChar

/-- CPython `repr` of a string, over the character model of
`reprEscapeChar`. -/
def pyRepr (s : List Char) : List Char :=
  pyReprQuote s :: (s.map (reprEscapeChar (pyReprQuote s))).flatten ++ [pyReprQuote s]

/-- `str(e)` of a Django `ValidationError` holding one message: Python `repr`
of the one-element message list. -/
def django_validation_error_str (m : String) : String :=
  "[" ++ String.mk (pyRepr m.data) ++ "]"

/-- The `except` clause of `validate_file`: every raised error is re-raised as
`ValidationError(f"File validation failed: {str(e)}")`. -/
def wrap_error (e : VError) : VError :=
  ⟨e.reason, "File validation failed: " ++ django_validation_error_str e.message⟩

/-- `SecureFileUploadMixin.validate_file`: the checks of `validate_core`, with
every rejection wrapped by the enclosing `except` clause. -/
def validate_file (f : UploadedFile) : Except VError Bool × Nat :=
  match validate_core f with
  | (.error e, p) => (.error (wrap_error e), p)
  | (.ok b, p) => (.ok b, p)

/-- Failure of check 1 (size). -/
def sizeFails (f : UploadedFile) : Bool := decide (MAX_FILE_SIZE < f.size)

/-- Failure of check 2 (filename length). -/
def filenameFails (f : UploadedFile) : Bool := decide (MAX_FILENAME_LENGTH < f.name.length)

/-- Failure of check 3 (extension allow-list). -/
def extensionFails (f : UploadedFile) : Bool :=
  !(allowedExts.contains (lowerStr (splitext f.name.data).2))

/-- Failure of check 4 (MIME allow-list, on the detected MIME type). -/
def mimeFails (f : UploadedFile) : Bool := !(optMimeAllowed (detected_mime f))

/-- Failure of check 5 (content sniff on the sample). -/
def sniffFails (f : UploadedFile) : Bool := contains_suspicious_content (sampleOf f)

/-- The earliest failing check in the spec's fixed order: size, filename
length, extension, MIME, content sniff. -/
def firstFailing (f : UploadedFile) : Option Reason :=
  if sizeFails f then some .FileTooLarge
  else if filenameFails f then some .FilenameTooLong
  else if extensionFails f then some .ExtensionNotAllowed
  else if mimeFails f then some .MimeNotAllowed
  else if sniffFails f then some .SuspiciousContent
  else none

/-- The unwrapped message of the rejection raised by each check. -/
def reasonMessage (f : UploadedFile) : Reason → String
  | .FileTooLarge => size_message
  | .FilenameTooLong => length_message
  | .ExtensionNotAllowed => extension_message
  | .MimeNotAllowed => mime_message (detected_mime f)
  | .SuspiciousContent => sniff_message

/-- The stream position each outcome leaves behind: unchanged for the checks
that precede the sample read, `0` afterwards. -/
def reasonPos (f : UploadedFile) : Option Reason → Nat
  | some .FileTooLarge => f.pos
  | some .FilenameTooLong => f.pos
  | some .ExtensionNotAllowed => f.pos
  | _ => 0

/-- The outcome predicted by the ordered reading of the five checks. -/
def orderedOutcome (f : UploadedFile) : Except VError Bool × Nat :=
  match firstFailing f with
  | some r => (.error ⟨r, reasonMessage f r⟩, reasonPos f (some r))
  | none => (.ok true, 0)

/-- Master characterization: `validate_core` is exactly the ordered reading of
the five checks. -/
theorem validate_core_eq_orderedOutcome (f : UploadedFile) :
    validate_core f = orderedOutcome f := by
  unfold validate_core orderedOutcome firstFailing sizeFails filenameFails
    extensionFails mimeFails sniffFails
  simp only [decide_eq_true_eq]
  split_ifs <;> rfl

/-- The wrapped form of the same characterization, for `validate_file`. -/
theorem validate_file_eq (f : UploadedFile) :
    validate_file f =
      match firstFailing f with
      | some r => (.error (wrap_error ⟨r, reasonMessage f r⟩), reasonPos f (some r))
      | none => (.ok true, 0) := by
  unfold validate_file
  rw [validate_core_eq_orderedOutcome]
  unfold orderedOutcome
  rcases firstFailing f with _ | r <;> rfl

/-- C1: `validate_file` applies its five checks in the fixed order size,
filename length, extension, MIME, content sniff, short-circuiting on the first
failure: when no check fails it accepts, and otherwise the rejection it reports
carries the reason of the earliest failing check in this order. -/
theorem claim_C1_check_order (f : UploadedFile) :
    (firstFailing f = none → (validate_file f).1 = .ok true) ∧
    (∀ r : Reason, firstFailing f = some r →
      ∃ m : String, (validate_file f).1 = .error ⟨r, m⟩) := by
  rw [validate_file_eq]
  constructor
  · intro h
    rw [h]
  · intro r h
    rw [h]
    exact ⟨(wrap_error ⟨r, reasonMessage f r⟩).message, rfl⟩

/-- C1 witness: a file that is both oversized and has a disallowed extension is
rejected for size. -/
theorem claim_C1_witness :
    ∃ m : String,
      (validate_file ⟨"evil.exe", 10 * 1024 * 1024 + 1, [], 0⟩).1 =
        .error ⟨.FileTooLarge, m⟩ :=
  (claim_C1_check_order ⟨"evil.exe", 10 * 1024 * 1024 + 1, [], 0⟩).2
    .FileTooLarge (by decide)

/-- C2: a file whose declared size strictly exceeds `10*1024*1024` bytes is
rejected with the `FileTooLarge` reason, regardless of its other fields; a file
of exactly `10*1024*1024` bytes passes the size check (its rejection reason, if
any, is never `FileTooLarge`). -/
theorem claim_C2_size_limit (f : UploadedFile) :
    (10 * 1024 * 1024 < f.size →
      ∃ m : String, (validate_file f).1 = .error ⟨.FileTooLarge, m⟩) ∧
    (f.size = 10 * 1024 * 1024 →
      ∀ e : VError, (validate_file f).1 = .error e → e.reason ≠ .FileTooLarge) := by
  have hsz : ∀ r, firstFailing f = some r → r ≠ .FileTooLarge → sizeFails f = false := by
    intro r h hr
    by_contra hb
    rw [firstFailing, if_pos (by revert hb; cases sizeFails f <;> simp)] at h
    exact hr (Option.some.inj h).symm
  constructor
  · intro hs
    have h1 : firstFailing f = some .FileTooLarge := by
      rw [firstFailing, if_pos]
      simp only [sizeFails, MAX_FILE_SIZE]
      exact decide_eq_true hs
    rw [validate_file_eq, h1]
    exact ⟨_, rfl⟩
  · intro hs e he hr
    have hnot : sizeFails f = false := by
      simp [sizeFails, hs, MAX_FILE_SIZE]
    rw [validate_file_eq] at he
    rcases h1 : firstFailing f with _ | r
    · rw [h1] at he; cases he
    · rw [h1] at he
      simp only [Except.error.injEq] at he
      subst he
      rcases r with _ | _ | _ | _ | _
      · rw [firstFailing, if_neg (by simp [hnot])] at h1
        revert h1
        split_ifs <;> simp
      all_goals simp [wrap_error] at hr

/-- C2 witness: a one-byte-oversized file is rejected for size, and a file of
exactly 10 MiB is not rejected for size. -/
theorem claim_C2_witness :
    (∃ m : String,
      (validate_file ⟨"a.txt", 10 * 1024 * 1024 + 1, [], 0⟩).1 =
        .error ⟨.FileTooLarge, m⟩) ∧
    (∀ e : VError,
      (validate_file ⟨"a.txt", 10 * 1024 * 1024, [], 0⟩).1 = .error e →
        e.reason ≠ .FileTooLarge) :=
  ⟨(claim_C2_size_limit ⟨"a.txt", 10 * 1024 * 1024 + 1, [], 0⟩).1 (by decide),
   (claim_C2_size_limit ⟨"a.txt", 10 * 1024 * 1024, [], 0⟩).2 rfl⟩

/-- Any rejection of `validate_file` carries the reason of the earliest
failing check. -/
theorem reason_of_error (f : UploadedFile) (e : VError)
    (he : (validate_file f).1 = .error e) : firstFailing f = some e.reason := by
  rw [validate_file_eq] at he
  rcases h1 : firstFailing f with _ | r <;> rw [h1] at he
  · cases he
  · simp only [Except.error.injEq] at he
    subst he
    rfl

/-- C3: a file that passes the size, filename-length, extension and MIME
checks, starting at the beginning of its stream, whose first 2048 bytes
contain one of the suspicious byte markers in any letter case, is rejected
with the `SuspiciousContent` reason. -/
theorem claim_C3_content_sniff (f : UploadedFile)
    (hpos : f.pos = 0)
    (h1 : sizeFails f = false) (h2 : filenameFails f = false)
    (h3 : extensionFails f = false) (h4 : mimeFails f = false)
    (h5 : contains_suspicious_content (f.content.take 2048) = true) :
    ∃ m : String, (validate_file f).1 = .error ⟨.SuspiciousContent, m⟩ := by
  have hff : firstFailing f = some .SuspiciousContent := by
    rw [firstFailing, if_neg (by simp [h1]), if_neg (by simp [h2]),
      if_neg (by simp [h3]), if_neg (by simp [h4]), if_pos]
    show sniffFails f = true
    rw [sniffFails, sampleOf, hpos, List.drop_zero]
    exact h5
  rw [validate_file_eq, hff]
  exact ⟨_, rfl⟩

/-- C3 witness: `"resume.pdf"` with valid extension and MIME whose sample
contains `<ScRiPt` is rejected with `SuspiciousContent`. -/
theorem claim_C3_witness :
    ∃ m : String,
      (validate_file ⟨"resume.pdf", 1000, strBytes "%PDF-1.4 <ScRiPt>alert(1)", 0⟩).1 =
        .error ⟨.SuspiciousContent, m⟩ :=
  claim_C3_content_sniff ⟨"resume.pdf", 1000, strBytes "%PDF-1.4 <ScRiPt>alert(1)", 0⟩
    rfl (by decide) (by decide) (by decide) (by decide) (by decide)

/-- C4: `"resume.pdf"` (declared MIME `application/pdf`) with clean content and
`"a.txt"` (declared MIME `text/plain`) with content `"hello world"`, each
within the size and filename-length limits, are accepted: `validate_file`
returns `True` without raising. -/
theorem claim_C4_accepted_examples :
    (validate_file ⟨"resume.pdf", 1000, strBytes "%PDF-1.4 sample resume text", 0⟩).1 =
      .ok true ∧
    (validate_file ⟨"a.txt", 11, strBytes "hello world", 0⟩).1 = .ok true :=
  ⟨rfl, rfl⟩

/-- C5: a file within the size and filename-length limits whose filename's
lowercase suffix (in the sense of `os.path.splitext`) is not in the extension
allow-list is rejected with the `ExtensionNotAllowed` reason. -/
theorem claim_C5_extension_check (f : UploadedFile)
    (hs : f.size ≤ MAX_FILE_SIZE) (hn : f.name.length ≤ MAX_FILENAME_LENGTH)
    (hx : allowedExts.contains (lowerStr (splitext f.name.data).2) = false) :
    ∃ m : String, (validate_file f).1 = .error ⟨.ExtensionNotAllowed, m⟩ := by
  have hff : firstFailing f = some .ExtensionNotAllowed := by
    rw [firstFailing, if_neg (by simp [sizeFails, hs, not_lt_of_le]),
      if_neg (by simp [filenameFails, hn, not_lt_of_le]), if_pos]
    show extensionFails f = true
    rw [extensionFails, hx]
    rfl
  rw [validate_file_eq, hff]
  exact ⟨_, rfl⟩

/-- C5 witness: `"resume.exe"` is rejected with `ExtensionNotAllowed`. -/
theorem claim_C5_witness :
    ∃ m : String,
      (validate_file ⟨"resume.exe", 1000, strBytes "MZ", 0⟩).1 =
        .error ⟨.ExtensionNotAllowed, m⟩ :=
  claim_C5_extension_check ⟨"resume.exe", 1000, strBytes "MZ", 0⟩
    (by decide) (by decide) (by decide)

/-- C6: a file within the size limit whose filename is strictly longer than
255 characters is rejected with the `FilenameTooLong` reason; a filename of
exactly 255 characters passes the length check (its rejection reason, if any,
is never `FilenameTooLong`). -/
theorem claim_C6_filename_length (f : UploadedFile) :
    (f.size ≤ MAX_FILE_SIZE → 255 < f.name.length →
      ∃ m : String, (validate_file f).1 = .error ⟨.FilenameTooLong, m⟩) ∧
    (f.name.length = 255 →
      ∀ e : VError, (validate_file f).1 = .error e → e.reason ≠ .FilenameTooLong) := by
  constructor
  · intro hs hl
    have hff : firstFailing f = some .FilenameTooLong := by
      rw [firstFailing, if_neg (by simp [sizeFails, hs, not_lt_of_le]), if_pos]
      show filenameFails f = true
      simp [filenameFails, MAX_FILENAME_LENGTH, hl]
    rw [validate_file_eq, hff]
    exact ⟨_, rfl⟩
  · intro hl e he hr
    have hff := reason_of_error f e he
    rw [hr] at hff
    have hnot : filenameFails f = false := by
      simp [filenameFails, MAX_FILENAME_LENGTH, hl]
    rw [firstFailing] at hff
    revert hff
    split_ifs with hc1 hc2 <;> simp_all

set_option maxRecDepth 4000

/-- C6 witness: a 256-character filename is rejected for length, and a
255-character filename ending in `.txt` is not rejected for length. -/
theorem claim_C6_witness :
    (∃ m : String,
      (validate_file ⟨String.mk (List.replicate 256 'a'), 5, [], 0⟩).1 =
        .error ⟨.FilenameTooLong, m⟩) ∧
    (∀ e : VError,
      (validate_file ⟨String.mk (List.replicate 251 'a' ++ ".txt".data), 5, [], 0⟩).1 =
          .error e →
        e.reason ≠ .FilenameTooLong) :=
  ⟨(claim_C6_filename_length ⟨String.mk (List.replicate 256 'a'), 5, [], 0⟩).1
      (by decide) (by decide),
   (claim_C6_filename_length ⟨String.mk (List.replicate 251 'a' ++ ".txt".data), 5, [], 0⟩).2
      (by decide)⟩

/-- `(s ++ t).data` is the concatenation of the character lists. -/
theorem dataAppend (s t : String) : (s ++ t).data = s.data ++ t.data := by
  cases s
  cases t
  rfl

/-- A list is a prefix of itself followed by anything. -/
theorem isPrefixOf_append {α : Type} [BEq α] [LawfulBEq α] (pat b : List α) :
    pat.isPrefixOf (pat ++ b) = true := by
  induction pat with
  | nil => simp [List.isPrefixOf]
  | cons a as ih => simp [List.isPrefixOf, ih]

/-- The empty pattern occurs in every list. -/
theorem hasSeg_nil {α : Type} [BEq α] (l : List α) : hasSeg ([] : List α) l = true := by
  cases l <;> simp [hasSeg, List.isPrefixOf, List.isEmpty]

/-- A pattern occurs at the front of itself followed by anything. -/
theorem hasSeg_self_append {α : Type} [BEq α] [LawfulBEq α] (pat b : List α) :
    hasSeg pat (pat ++ b) = true := by
  cases pat with
  | nil => exact hasSeg_nil b
  | cons p ps =>
    have h := isPrefixOf_append (p :: ps) b
    simp only [List.cons_append] at h ⊢
    simp [hasSeg, h]

/-- Occurrence of a pattern is preserved by prepending. -/
theorem hasSeg_prepend {α : Type} [BEq α] (pat l a : List α)
    (h : hasSeg pat l = true) : hasSeg pat (a ++ l) = true := by
  induction a with
  | nil => exact h
  | cons x xs ih =>
    rw [List.cons_append, hasSeg, ih, Bool.or_true]

/-- Occurrence of a pattern is preserved by one more leading element. -/
theorem hasSeg_cons {α : Type} [BEq α] (pat l : List α) (x : α)
    (h : hasSeg pat l = true) : hasSeg pat (x :: l) = true := by
  rw [hasSeg, h, Bool.or_true]

/-- A character that `repr` emits verbatim under single quotes: printable
ASCII and neither a quote nor a backslash. -/
def reprPlain (c : Char) : Bool :=
  decide (32 ≤ c.toNat) && decide (c.toNat ≤ 126) &&
    c != squoteChar && c != dquoteChar && c != backslashChar

/-- `repr` escaping leaves a plain character unchanged. -/
theorem reprEscapeChar_plain (c : Char) (h : reprPlain c = true) :
    reprEscapeChar squoteChar c = [c] := by
  unfold reprPlain at h
  simp only [Bool.and_eq_true, bne_iff_ne, decide_eq_true_eq] at h
  obtain ⟨⟨⟨⟨h1, h2⟩, h3⟩, h4⟩, h5⟩ := h
  unfold reprEscapeChar
  rw [if_neg (by push_neg; exact ⟨h3, h5⟩),
    if_neg (fun heq => by rw [heq] at h1; exact absurd h1 (by decide)),
    if_neg (fun heq => by rw [heq] at h1; exact absurd h1 (by decide)),
    if_neg (fun heq => by rw [heq] at h1; exact absurd h1 (by decide)),
    if_neg (by push_neg; omega)]

/-- `repr` escaping leaves a string of plain characters unchanged. -/
theorem map_escape_plain (m : List Char) (h : m.all reprPlain = true) :
    (m.map (reprEscapeChar squoteChar)).flatten = m := by
  induction m with
  | nil => rfl
  | cons c cs ih =>
    rw [List.all_cons, Bool.and_eq_true] at h
    rw [List.map_cons, List.flatten_cons, reprEscapeChar_plain c h.1, ih h.2,
      List.singleton_append]

/-- A non-plain character does not occur in a string of plain characters. -/
theorem not_mem_of_plain (m : List Char) (h : m.all reprPlain = true)
    (q : Char) (hq : reprPlain q = false) : q ∉ m := by
  intro hqm
  have hh := List.all_eq_true.mp h q hqm
  rw [hq] at hh
  cases hh

/-- The MIME-rejection message around a plain detected value holds no single
quote, so `repr` prints it under single quotes. -/
theorem pyReprQuote_detected (m : List Char) (h : m.all reprPlain = true) :
    pyReprQuote ("File type not allowed. Detected: ".data ++ m) = squoteChar := by
  have hmem : squoteChar ∉ "File type not allowed. Detected: ".data ++ m := by
    rw [List.mem_append]
    push_neg
    exact ⟨by decide, not_mem_of_plain m h squoteChar (by decide)⟩
  have hn : ("File type not allowed. Detected: ".data ++ m).contains squoteChar = false := by
    cases hc : ("File type not allowed. Detected: ".data ++ m).contains squoteChar
    · rfl
    · exact absurd (List.elem_iff.mp hc) hmem
  unfold pyReprQuote
  rw [hn]
  simp

/-- The wrapped MIME-rejection message embeds a plain detected value
verbatim. -/
theorem wrapped_mime_embeds (m : List Char) (h : m.all reprPlain = true) :
    hasSeg m (wrap_error ⟨.MimeNotAllowed, mime_message (some m)⟩).message.data = true := by
  have hq := pyReprQuote_detected m h
  have hesc := map_escape_plain m h
  have hD : ("File type not allowed. Detected: ".data.map
      (reprEscapeChar squoteChar)).flatten = "File type not allowed. Detected: ".data := by
    decide
  have hrep : pyRepr ("File type not allowed. Detected: ".data ++ m)
      = squoteChar :: (("File type not allowed. Detected: ".data ++ m) ++ [squoteChar]) := by
    unfold pyRepr
    rw [hq, List.map_append, List.flatten_append, hD, hesc, List.cons_append]
  have hmsg : (wrap_error ⟨.MimeNotAllowed, mime_message (some m)⟩).message.data
      = "File validation failed: ".data ++
          (("[".data ++ pyRepr ("File type not allowed. Detected: ".data ++ m)) ++
            "]".data) := rfl
  rw [hmsg, hrep]
  refine hasSeg_prepend _ _ _ ?_
  rw [List.append_assoc]
  refine hasSeg_prepend _ _ _ ?_
  rw [List.cons_append]
  refine hasSeg_cons _ _ _ ?_
  rw [List.append_assoc, List.append_assoc]
  refine hasSeg_prepend _ _ _ ?_
  exact hasSeg_self_append m _

/-- The position `validate_file` leaves the stream at, as a function of the
earliest failing check. -/
theorem pos_after (f : UploadedFile) :
    (validate_file f).2 = reasonPos f (firstFailing f) := by
  rw [validate_file_eq]
  rcases firstFailing f with _ | r <;> rfl

/-- The concrete input refuting C7: a PDF-named file whose content holds a
script tag. -/
def cexFile7 : UploadedFile := ⟨"resume.pdf", 30, strBytes "<script>alert(1)</script>", 0⟩

/-- C7 counterexample: the file is rejected with the `SuspiciousContent`
reason, but the rejection message is the generic one and does not embed the
detected marker `<script` (nor any other marker). -/
theorem claim_C7_counterexample :
    (validate_file cexFile7).1 =
      .error ⟨.SuspiciousContent,
        "File validation failed: [" ++ sq ++ "File contains suspicious content" ++ sq ++ "]"⟩ ∧
    hasSeg "<script".data
      ("File validation failed: [" ++ sq ++ "File contains suspicious content" ++ sq ++ "]").data
        = false := by
  constructor
  · rfl
  · decide

/-- C7 (amended): `validate_file` either returns `True` or raises a
`ValidationError`; the size message embeds the 10 MB limit, the length message
embeds the 255 limit, and the MIME message embeds the detected MIME (printed
as `None` when detection fails) whenever the detected value consists of
printable ASCII characters free of quotes and backslashes (Python `repr`
escaping can otherwise alter the embedded text).  However the extension
message embeds the list of allowed extensions (not the detected extension),
and the suspicious-content message is a fixed generic sentence that does not
name the detected marker. -/
theorem claim_C7_amended (f : UploadedFile) :
    ((validate_file f).1 = .ok true ∨ ∃ e : VError, (validate_file f).1 = .error e) ∧
    (∀ e : VError, (validate_file f).1 = .error e →
      (e.reason = .FileTooLarge → hasSeg "10MB".data e.message.data = true) ∧
      (e.reason = .FilenameTooLong → hasSeg "255".data e.message.data = true) ∧
      (e.reason = .ExtensionNotAllowed →
        hasSeg ".pdf, .doc, .docx, .txt, .jpg, .png".data e.message.data = true) ∧
      (e.reason = .MimeNotAllowed →
        (∀ m : List Char, detected_mime f = some m → m.all reprPlain = true →
          hasSeg m e.message.data = true) ∧
        (detected_mime f = none → hasSeg "None".data e.message.data = true)) ∧
      (e.reason = .SuspiciousContent →
        e.message = "File validation failed: [" ++ sq ++ sniff_message ++ sq ++ "]")) := by
  constructor
  · rw [validate_file_eq]
    rcases firstFailing f with _ | r
    · exact .inl rfl
    · exact .inr ⟨_, rfl⟩
  · intro e he
    rw [validate_file_eq] at he
    rcases h1 : firstFailing f with _ | r <;> rw [h1] at he
    · cases he
    · simp only [Except.error.injEq] at he
      subst he
      rcases r with _ | _ | _ | _ | _
      · refine ⟨fun _ => ?_, fun hr => ?_, fun hr => ?_, fun hr => ?_, fun hr => ?_⟩
        · simp only [wrap_error, reasonMessage]
          decide
        all_goals simp [wrap_error] at hr
      · refine ⟨fun hr => ?_, fun _ => ?_, fun hr => ?_, fun hr => ?_, fun hr => ?_⟩
        · simp [wrap_error] at hr
        · simp only [wrap_error, reasonMessage]
          decide
        all_goals simp [wrap_error] at hr
      · refine ⟨fun hr => ?_, fun hr => ?_, fun _ => ?_, fun hr => ?_, fun hr => ?_⟩
        · simp [wrap_error] at hr
        · simp [wrap_error] at hr
        · simp only [wrap_error, reasonMessage]
          decide
        all_goals simp [wrap_error] at hr
      · refine ⟨fun hr => ?_, fun hr => ?_, fun hr => ?_, fun _ => ?_, fun hr => ?_⟩
        · simp [wrap_error] at hr
        · simp [wrap_error] at hr
        · simp [wrap_error] at hr
        · constructor
          · intro m hd hm
            simp only [reasonMessage, hd]
            exact wrapped_mime_embeds m hm
          · intro hd
            simp only [wrap_error, reasonMessage, mime_message, hd]
            decide
        · simp [wrap_error] at hr
      · refine ⟨fun hr => ?_, fun hr => ?_, fun hr => ?_, fun hr => ?_, fun _ => ?_⟩
        · simp [wrap_error] at hr
        · simp [wrap_error] at hr
        · simp [wrap_error] at hr
        · simp [wrap_error] at hr
        · rfl

/-- C7 witness: at a concrete oversized file the rejection message embeds the
10 MB limit, and at a concrete MIME rejection with the plain detected value
`foo/bar` the message embeds that value. -/
theorem claim_C7_witness :
    hasSeg "10MB".data
      (wrap_error ⟨.FileTooLarge, size_message⟩).message.data = true ∧
    hasSeg "foo/bar".data
      (wrap_error ⟨.MimeNotAllowed,
        mime_message (some "foo/bar".data)⟩).message.data = true :=
  ⟨((claim_C7_amended ⟨"a.txt", 10 * 1024 * 1024 + 1, [], 0⟩).2
      (wrap_error ⟨.FileTooLarge, size_message⟩) rfl).1 rfl,
   (((claim_C7_amended ⟨"data:foo/bar,x.txt", 5, strBytes "hi", 0⟩).2
      (wrap_error ⟨.MimeNotAllowed, mime_message (some "foo/bar".data)⟩) rfl).2.2.2.1
        rfl).1 "foo/bar".data (by decide) (by decide)⟩

/-- C9: `validate_file` is pure — its result (and final position) depends only
on the candidate's name, size, content and starting position — and calling it
twice in succession on a stream that starts at position 0 yields the same
result both times, the first call having left no state behind that affects the
second. -/
theorem claim_C9_pure_idempotent :
    (∀ f g : UploadedFile, f.name = g.name → f.size = g.size → f.content = g.content →
      f.pos = g.pos → validate_file f = validate_file g) ∧
    (∀ f : UploadedFile, f.pos = 0 →
      validate_file ⟨f.name, f.size, f.content, (validate_file f).2⟩ = validate_file f) := by
  constructor
  · rintro ⟨n, s, c, p⟩ ⟨n', s', c', p'⟩ h1 h2 h3 h4
    simp only at h1 h2 h3 h4
    subst h1; subst h2; subst h3; subst h4
    rfl
  · intro f h0
    have hz : (validate_file f).2 = 0 := by
      rw [pos_after f]
      rcases firstFailing f with _ | r
      · rfl
      · rcases r with _ | _ | _ | _ | _ <;> simp [reasonPos, h0]
    rw [hz, ← h0]

/-- C9 witness: the second call on the stream state left by a first call (from
position 0) returns the same result. -/
theorem claim_C9_witness :
    validate_file ⟨"a.txt", 11, strBytes "hello world",
        (validate_file ⟨"a.txt", 11, strBytes "hello world", 0⟩).2⟩ =
      validate_file ⟨"a.txt", 11, strBytes "hello world", 0⟩ :=
  claim_C9_pure_idempotent.2 ⟨"a.txt", 11, strBytes "hello world", 0⟩ rfl

/-- An extension whose lowercase form is on the allow-list contains no colon. -/
theorem no_colon_of_allowed (e : List Char) (h : lowerStr e ∈ allowedExts) : ':' ∉ e := by
  intro hc
  have hm : lowerChar ':' ∈ lowerStr e := List.mem_map_of_mem lowerChar hc
  rw [show lowerChar ':' = ':' from rfl] at hm
  simp only [allowedExts, ALLOWED_FILE_TYPES, List.map_cons, List.map_nil,
    List.mem_cons, List.not_mem_nil, or_false] at h
  rcases h with h | h | h | h | h | h <;> rw [h] at hm <;> revert hm <;> decide

/-- An extension whose lowercase form is on the allow-list is nonempty. -/
theorem ne_nil_of_allowed (e : List Char) (h : lowerStr e ∈ allowedExts) : e ≠ [] := by
  intro h0
  subst h0
  revert h
  decide

/-- The allow-listed extensions are not suffix-map keys. -/
theorem suffixMap_lookup_none (x : List Char) (h : x ∈ allowedExts) :
    suffixMap.lookup x = none := by
  simp only [allowedExts, ALLOWED_FILE_TYPES, List.map_cons, List.map_nil,
    List.mem_cons, List.not_mem_nil, or_false] at h
  rcases h with h | h | h | h | h | h <;> subst h <;> rfl

/-- An extension whose lowercase form is allow-listed is not an encodings-map
key (those lowercase to `.gz`, `.z`, `.bz2`, `.xz`, `.br`). -/
theorem not_encodings_of_allowed (e : List Char) (h : lowerStr e ∈ allowedExts) :
    encodingsKeys.contains e = false := by
  by_contra hb
  have hmem : e ∈ encodingsKeys := by
    have ht : encodingsKeys.contains e = true := by
      revert hb
      cases encodingsKeys.contains e <;> simp
    exact List.elem_iff.mp ht
  simp only [encodingsKeys, List.mem_cons, List.not_mem_nil, or_false] at hmem
  rcases hmem with h1 | h1 | h1 | h1 | h1 <;> subst h1 <;> revert h <;> decide

/-- Looking an allow-listed extension up in the reverse allow-list map yields
an allow-listed MIME type. -/
theorem lookup_extension_to_mime (x : List Char) (h : x ∈ allowedExts) :
    ∃ mm, extension_to_mime.lookup x = some mm ∧ allowedMimes.contains mm = true := by
  simp only [allowedExts, ALLOWED_FILE_TYPES, List.map_cons, List.map_nil,
    List.mem_cons, List.not_mem_nil, or_false] at h
  rcases h with h | h | h | h | h | h <;> subst h <;> exact ⟨_, rfl, rfl⟩

/-- Looking an allow-listed extension up in the `mimetypes` table yields an
allow-listed MIME type. -/
theorem typesMap_lookup_allowed (x : List Char) (h : x ∈ allowedExts) :
    ∃ mm, typesMap.lookup x = some mm ∧ allowedMimes.contains mm = true := by
  simp only [allowedExts, ALLOWED_FILE_TYPES, List.map_cons, List.map_nil,
    List.mem_cons, List.not_mem_nil, or_false] at h
  rcases h with h | h | h | h | h | h <;> subst h <;> exact ⟨_, rfl, rfl⟩

/-- The suffix-expansion loop stops immediately when the (lowercased)
extension is not a suffix-map key. -/
theorem stripSuffixes_eq_self (n : Nat) (b e : List Char)
    (h : suffixMap.lookup (lowerStr e) = none) :
    stripSuffixes n (b, e) = (b, e) := by
  cases n with
  | zero => rfl
  | succ m =>
    unfold stripSuffixes
    rw [h]

/-- `takeWhile`/`dropWhile` on a list split around the first failing element. -/
theorem takeWhile_middle {α : Type} (p : α → Bool) (a b : List α) (c : α)
    (ha : ∀ x ∈ a, p x = true) (hc : p c = false) :
    (a ++ c :: b).takeWhile p = a ∧ (a ++ c :: b).dropWhile p = c :: b := by
  induction a with
  | nil => simp [List.takeWhile_cons, List.dropWhile_cons, hc]
  | cons x xs ih =>
    have hx := ha x (by simp)
    have ih2 := ih (fun y hy => ha y (by simp [hy]))
    simp [List.takeWhile_cons, List.dropWhile_cons, hx, ih2.1, ih2.2]

/-- `span` on a list split around the first failing element. -/
theorem span_middle {α : Type} (p : α → Bool) (a b : List α) (c : α)
    (ha : ∀ x ∈ a, p x = true) (hc : p c = false) :
    (a ++ c :: b).span p = (a, c :: b) := by
  rw [List.span_eq_take_drop, (takeWhile_middle p a b c ha hc).1,
    (takeWhile_middle p a b c ha hc).2]

/-- The head of a `dropWhile` result fails the predicate. -/
theorem dropWhile_cons_false {α : Type} (p : α → Bool) (l : List α) (c : α) (cs : List α)
    (h : l.dropWhile p = c :: cs) : p c = false := by
  induction l with
  | nil => cases h
  | cons x xs ih =>
    rw [List.dropWhile_cons] at h
    by_cases hx : p x = true
    · rw [if_pos hx] at h
      exact ih h
    · rw [if_neg hx] at h
      obtain ⟨rfl, rfl⟩ := List.cons.inj h
      cases hpx : p x
      · rfl
      · exact absurd hpx hx

/-- A nonempty extension returned by `splitext` decomposes the reversed input
around its final dot, the extension body scanning clean of dots and slashes. -/
theorem splitext_ext_structure (p : List Char) (e : List Char)
    (he : (splitext p).2 = e) (hne : e ≠ []) :
    ∃ extRev restRev, p.reverse = extRev ++ '.' :: restRev ∧
      (∀ x ∈ extRev, notDotSlash x = true) ∧
      e = '.' :: extRev.reverse := by
  rcases hsp : p.reverse.span notDotSlash with ⟨a, suf⟩
  have hspan := List.span_eq_take_drop (p := notDotSlash) (l := p.reverse)
  rw [hsp] at hspan
  have ha : a = p.reverse.takeWhile notDotSlash := congrArg Prod.fst hspan
  have hsuf : suf = p.reverse.dropWhile notDotSlash := congrArg Prod.snd hspan
  cases suf with
  | nil =>
    have hval : splitext p = (p, []) := by
      unfold splitext
      rw [hsp]
    rw [hval] at he
    exact absurd he.symm hne
  | cons c rest =>
    have hval : splitext p =
        (if c = '/' then (p, [])
         else if (rest.takeWhile (fun d => d != '/')).any (fun d => d != '.') then
           (rest.reverse, '.' :: a.reverse)
         else (p, [])) := by
      unfold splitext
      rw [hsp]
    rw [hval] at he
    have hcf : notDotSlash c = false :=
      dropWhile_cons_false notDotSlash p.reverse c rest hsuf.symm
    by_cases hslash : c = '/'
    · rw [if_pos hslash] at he
      exact absurd he.symm hne
    · rw [if_neg hslash] at he
      have hdot : c = '.' := by
        by_cases hd : c = '.'
        · exact hd
        · simp [notDotSlash, hd, hslash] at hcf
      subst hdot
      by_cases hcond :
          ((rest.takeWhile (fun d => d != '/')).any (fun d => d != '.')) = true
      · rw [if_pos hcond] at he
        have hdecomp : p.reverse = a ++ '.' :: rest := by
          conv_lhs => rw [← List.takeWhile_append_dropWhile (p := notDotSlash) (l := p.reverse)]
          rw [← ha, ← hsuf]
        refine ⟨a, rest, hdecomp, ?_, he.symm⟩
        intro x hx
        exact List.mem_takeWhile_imp (ha ▸ hx)
      · rw [if_neg hcond] at he
        exact absurd he.symm hne

/-- Conversely, an input whose reverse decomposes around a dot with a clean
extension body has that extension, or none at all. -/
theorem splitext_of_decomp (q : List Char) (extRev restRev : List Char)
    (hq : q.reverse = extRev ++ '.' :: restRev)
    (hall : ∀ x ∈ extRev, notDotSlash x = true) :
    (splitext q).2 = '.' :: extRev.reverse ∨ (splitext q).2 = [] := by
  have hsp : q.reverse.span notDotSlash = (extRev, '.' :: restRev) := by
    rw [hq]
    exact span_middle notDotSlash extRev restRev '.' hall (by decide)
  have hval : splitext q =
      (if ('.' : Char) = '/' then (q, [])
       else if (restRev.takeWhile (fun d => d != '/')).any (fun d => d != '.') then
         (restRev.reverse, '.' :: extRev.reverse)
       else (q, [])) := by
    unfold splitext
    rw [hsp]
  rw [hval, if_neg (by decide)]
  by_cases hcond :
      ((restRev.takeWhile (fun d => d != '/')).any (fun d => d != '.')) = true
  · rw [if_pos hcond]
    exact .inl rfl
  · rw [if_neg hcond]
    exact .inr rfl

/-- Stripping a scheme prefix `pre ++ ':'` cannot change a colon-free
extension into a different one: the remainder has the same extension, or none
(when everything before its final dot was dots). -/
theorem ext_transfer (pre rest : List Char) (e : List Char)
    (he : (splitext (pre ++ ':' :: rest)).2 = e)
    (hcolon : ':' ∉ e) (hne : e ≠ []) :
    (splitext rest).2 = e ∨ (splitext rest).2 = [] := by
  obtain ⟨extRev, restRev, hdecomp, hall, hee⟩ :=
    splitext_ext_structure (pre ++ ':' :: rest) e he hne
  rw [List.reverse_append, List.reverse_cons, List.append_assoc,
    List.singleton_append] at hdecomp
  rcases List.append_eq_append_iff.mp hdecomp with ⟨a2, h1, h2⟩ | ⟨c2, h1, h2⟩
  · -- extRev extends past the whole of rest.reverse: it would contain the colon
    cases a2 with
    | nil => simp at h2
    | cons x xs =>
      obtain ⟨rfl, _⟩ := List.cons.inj h2
      exfalso
      apply hcolon
      rw [hee]
      have hcm : (':' : Char) ∈ extRev := by
        rw [h1]
        simp
      exact List.mem_cons.mpr (.inr (List.mem_reverse.mpr hcm))
  · -- the final dot lies inside rest: rebuild splitext rest
    cases c2 with
    | nil => simp at h2
    | cons y ys =>
      obtain ⟨rfl, _⟩ := List.cons.inj h2
      have := splitext_of_decomp rest extRev ys h1 hall
      rw [← hee] at this
      exact this

/-- Case analysis for `splittype`: either no scheme is split off (and the
remainder is the whole input), or the input decomposes as `pre ++ ':' ++ rest`
with the lowercased `pre` as scheme. -/
theorem splittype_cases (url : List Char) :
    splittype url = (none, url) ∨
      ∃ pre rest, splittype url = (some (lowerStr pre), rest) ∧
        url = pre ++ ':' :: rest := by
  rcases hsp : url.span schemeChar with ⟨pre, suf⟩
  have hspan := List.span_eq_take_drop (p := schemeChar) (l := url)
  rw [hsp] at hspan
  have ha : pre = url.takeWhile schemeChar := congrArg Prod.fst hspan
  have hsuf : suf = url.dropWhile schemeChar := congrArg Prod.snd hspan
  have hacc : url = pre ++ suf := by
    conv_lhs => rw [← List.takeWhile_append_dropWhile (p := schemeChar) (l := url)]
    rw [← ha, ← hsuf]
  cases suf with
  | nil =>
    left
    unfold splittype
    rw [hsp]
  | cons c cs =>
    have hval : splittype url =
        (if c = ':' ∧ pre.isEmpty = false then (some (lowerStr pre), cs)
         else (none, url)) := by
      unfold splittype
      rw [hsp]
    by_cases hc : c = ':' ∧ pre.isEmpty = false
    · right
      refine ⟨pre, cs, ?_, ?_⟩
      · rw [hval, if_pos hc]
      · rw [hacc, hc.1]
    · left
      rw [hval, if_neg hc]

/-- On an input whose (lowercased) extension is allow-listed, the table path
of `guess_type` returns an allow-listed MIME type. -/
theorem guessTypeTable_allowed (u : List Char)
    (h : lowerStr (splitext u).2 ∈ allowedExts) :
    ∃ mm, guessTypeTable u = some mm ∧ allowedMimes.contains mm = true := by
  obtain ⟨mm, hl, hc⟩ := typesMap_lookup_allowed _ h
  refine ⟨mm, ?_, hc⟩
  unfold guessTypeTable
  have hpair : splitext u = ((splitext u).1, (splitext u).2) := rfl
  rw [hpair, stripSuffixes_eq_self 8 _ _ (suffixMap_lookup_none _ h)]
  simp only [not_encodings_of_allowed _ h, Bool.false_eq_true, if_false]
  exact hl

/-- On an input with no extension, the table path of `guess_type` detects
nothing. -/
theorem guessTypeTable_nil (u : List Char) (h : (splitext u).2 = []) :
    guessTypeTable u = none := by
  unfold guessTypeTable
  have hpair : splitext u = ((splitext u).1, []) := by
    rw [← h]
  rw [hpair, stripSuffixes_eq_self 8 _ _ (by rfl)]
  simp only [show encodingsKeys.contains ([] : List Char) = false from rfl,
    Bool.false_eq_true, if_false]
  rfl

/-- `guess_type` on a filename whose (lowercased) extension is allow-listed
and which is not parsed as a `data:` URL either detects nothing or detects an
allow-listed MIME type. -/
theorem guessType_spec (name : List Char)
    (hex : lowerStr (splitext name).2 ∈ allowedExts)
    (hnd : (splittype name).1 ≠ some ("data".data)) :
    guessType name = none ∨
      ∃ mm, guessType name = some mm ∧ allowedMimes.contains mm = true := by
  rcases splittype_cases name with hsp | ⟨pre, rest, hsp, hurl⟩
  · right
    have hg : guessType name = guessTypeTable name := by
      unfold guessType
      rw [hsp]
    rw [hg]
    exact guessTypeTable_allowed name hex
  · have hscheme : ¬ lowerStr pre = "data".data := by
      intro hd
      apply hnd
      rw [hsp, hd]
  -- the non-data scheme path strips the scheme and keeps the table lookup
    have hg : guessType name = guessTypeTable rest := by
      have hv : guessType name =
          (if lowerStr pre = "data".data then dataUrlType rest else guessTypeTable rest) := by
        unfold guessType
        rw [hsp]
      rw [hv, if_neg hscheme]
    rw [hg]
    have hcol : ':' ∉ (splitext name).2 := no_colon_of_allowed _ hex
    have hne : (splitext name).2 ≠ [] := ne_nil_of_allowed _ hex
    have htr := ext_transfer pre rest (splitext name).2 (by rw [← hurl]) hcol hne
    rcases htr with htr | htr
    · right
      apply guessTypeTable_allowed
      rw [htr]
      exact hex
    · left
      exact guessTypeTable_nil rest htr

/-- A file that passes the extension check and whose name is not parsed as a
`data:` URL also passes the MIME check. -/
theorem mimeFails_false_of_ext (f : UploadedFile)
    (hex : extensionFails f = false)
    (hnd : (splittype f.name.data).1 ≠ some ("data".data)) :
    mimeFails f = false := by
  have hmem : lowerStr (splitext f.name.data).2 ∈ allowedExts := by
    have hct : allowedExts.contains (lowerStr (splitext f.name.data).2) = true := by
      revert hex
      unfold extensionFails
      cases allowedExts.contains (lowerStr (splitext f.name.data).2) <;> simp
    exact List.elem_iff.mp hct
  unfold mimeFails detected_mime
  rcases guessType_spec f.name.data hmem hnd with hg | ⟨mm, hg, hc⟩
  · rw [hg]
    obtain ⟨mm, hl, hc⟩ := lookup_extension_to_mime _ hmem
    rw [hl]
    simp [optMimeAllowed, List.elem_iff.mp hc]
  · rw [hg]
    simp [optMimeAllowed, List.elem_iff.mp hc]

/-- The concrete input refuting C10: a filename that `os.path.splitext` gives
the allowed extension `.txt` but that `mimetypes.guess_type` parses as a
`data:` URL with media type `foo/bar`. -/
def cexFile10 : UploadedFile := ⟨"data:foo/bar,x.txt", 5, strBytes "hi", 0⟩

/-- C10 counterexample: the file passes the extension check, yet
`validate_file` rejects it with the `MimeNotAllowed` reason — the
`MimeNotAllowed` branch is reachable. -/
theorem claim_C10_counterexample :
    extensionFails cexFile10 = false ∧
      ∃ m : String, (validate_file cexFile10).1 = .error ⟨.MimeNotAllowed, m⟩ := by
  refine ⟨by decide, ⟨_, rfl⟩⟩

/-- C10 (amended): for every uploaded file whose filename is not parsed as a
`data:` URL by the MIME detector, if the extension check passes then the MIME
check also passes — `validate_file` never rejects such a file with the
`MimeNotAllowed` reason.  (Filenames that `mimetypes.guess_type` reads as
`data:` URLs can make that branch reachable.) -/
theorem claim_C10_amended (f : UploadedFile) (e : VError)
    (hnd : (splittype f.name.data).1 ≠ some ("data".data))
    (he : (validate_file f).1 = .error e) :
    e.reason ≠ .MimeNotAllowed := by
  intro hr
  have hff := reason_of_error f e he
  rw [hr, firstFailing] at hff
  revert hff
  split_ifs with h1 h2 h3 h4 h5
  · intro hff; simp at hff
  · intro hff; simp at hff
  · intro hff; simp at hff
  · intro _
    have hex : extensionFails f = false := by
      revert h3
      cases extensionFails f <;> simp
    have hm := mimeFails_false_of_ext f hex hnd
    rw [hm] at h4
    cases h4
  · intro hff; simp at hff
  · intro hff; simp at hff

/-- C10 witness: at the concrete non-data filename `"resume.exe"`, the
rejection reason is not `MimeNotAllowed`. -/
theorem claim_C10_witness :
    (wrap_error ⟨.ExtensionNotAllowed, extension_message⟩).reason ≠ .MimeNotAllowed :=
  claim_C10_amended ⟨"resume.exe", 5, [], 0⟩
    (wrap_error ⟨.ExtensionNotAllowed, extension_message⟩) (by decide) rfl

end UploadValidator
